import Mathlib

/-!
Verification of the gistrun command-line tool (src/gistrun/cli/__init__.py)
against its natural-language specification.

The Python module is shallowly embedded: every function under verification is
translated to an executable Lean definition. External facilities that the
specification declares out of scope (the GitHub HTTP API, the hashlib digest
primitives, the subprocess machinery, interactive confirmation prompts) are
represented by explicit parameters: a page-indexed listing response for the
remote service, an arbitrary hexdigest function for hashlib, a per-file
process outcome environment for subprocess.run, and booleans for the answers
of click.confirm.  Character-level helpers (`str_lower`, `utf8_encode_char`)
model the Python builtins str.lower and str.encode for the ASCII inputs the
tool manipulates.
-/

namespace Gistrun

/-- Model of the Python builtin `str.lower()` (ASCII case folding, which is all
the extension table and the skip marker need). -/
def str_lower (s : String) : String := String.mk (s.data.map Char.toLower)

/-- Model of a single UTF-8 encoded code point, as produced by the Python
builtin `str.encode("utf-8")` for one character. -/
def utf8_encode_char (n : Nat) : List Nat :=
  if n < 0x80 then [n]
  else if n < 0x800 then [0xC0 ||| (n >>> 6), 0x80 ||| (n &&& 0x3F)]
  else if n < 0x10000 then
    [0xE0 ||| (n >>> 12), 0x80 ||| ((n >>> 6) &&& 0x3F), 0x80 ||| (n &&& 0x3F)]
  else
    [0xF0 ||| (n >>> 18), 0x80 ||| ((n >>> 12) &&& 0x3F), 0x80 ||| ((n >>> 6) &&& 0x3F),
      0x80 ||| (n &&& 0x3F)]

/-- Model of `combined_content.encode(encoding)` with the fixed default
encoding `"utf-8"`: the byte sequence of the UTF-8 encoding of a string. -/
def encode_utf8 (s : String) : List Nat := s.data.flatMap (fun c => utf8_encode_char c.toNat)

/-- A gist as returned by the listing endpoint; only the fields the embedded
functions inspect are kept (`fetch_gist` reads `gist["description"]`). -/
structure Gist where
  id : String
  description : String
deriving DecidableEq

/-- Embedding of `list_user_gists(username, token)`: one GET request for the
user listing endpoint with `per_page` set but no `page` parameter, so the
remote service answers with its first page.  The remote service itself is
modelled by the page-indexed function `pages`. -/
def list_user_gists (pages : Nat → List Gist) : List Gist := pages 1

/-- Embedding of the `while True` loop of `fetch_gist(username, gist_name,
token)` (cli lines 181-193), with explicit fuel standing for the number of
iterations observed.  The loop keeps a `page` counter that it increments but
never passes to the request, exactly as the source does; each iteration calls
`list_user_gists`.  `none` means the loop is still running after `fuel`
iterations; `some (Except.error _)` is the `ValueError` raised after `break`;
`some (Except.ok g)` is the returned gist. -/
def fetch_gist_loop (pages : Nat → List Gist) (username gist_name : String) :
    Nat → Nat → Option (Except String Gist)
  | _page, 0 => none
  | page, fuel + 1 =>
    let gists := list_user_gists pages
    if gists.isEmpty then
      some (Except.error ("Gist not found: " ++ username ++ "/" ++ gist_name))
    else
      match gists.find? (fun g => g.description == gist_name) with
      | some g => some (Except.ok g)
      | none => fetch_gist_loop pages username gist_name (page + 1) fuel

/-- Embedding of `fetch_gist`: the loop starts at `page = 1`. -/
def fetch_gist (pages : Nat → List Gist) (username gist_name : String) (fuel : Nat) :
    Option (Except String Gist) :=
  fetch_gist_loop pages username gist_name 1 fuel

/-- The hand-curated extension table of `execute_mapping()` (cli lines
222-281), verbatim. -/
def extension_table : List (String × String) :=
  [(".asm", "nasm"), (".awk", "awk -f"), (".bat", "cmd /c"), (".c", "gcc"),
   (".clj", "clojure"), (".cpp", "g++"), (".cs", "dotnet script"), (".css", "skip"),
   (".dart", "dart"), (".erl", "escript"), (".fsx", "dotnet fsi"), (".go", "go run"),
   (".groovy", "groovy"), (".h", "skip"), (".hpp", "skip"), (".hs", "runhaskell"),
   (".html", "skip"), (".java", "javac"), (".js", "node"), (".json", "skip"),
   (".jsx", "node"), (".kt", "kotlin"), (".less", "skip"), (".lua", "lua"),
   (".m", "octave"), (".md", "skip"), (".ml", "ocaml"), (".nim", "nim compile --run"),
   (".p", "prolog"), (".pas", "fpc"), (".php", "php"), (".pl", "perl"),
   (".ps1", "powershell -File"), (".py", "python"), (".pyc", "python"),
   (".pyx", "cython"), (".r", "Rscript"), (".rb", "ruby"), (".rs", "rustc"),
   (".rst", "skip"), (".sass", "skip"), (".scala", "scala"), (".scss", "skip"),
   (".sh", "bash"), (".sml", "sml"), (".sql", "skip"), (".swift", "swift"),
   (".tcl", "tclsh"), (".tex", "skip"), (".ts", "ts-node"), (".tsx", "ts-node"),
   (".txt", "skip"), (".vb", "vbnc"), (".vbs", "cscript //Nologo"), (".vue", "skip"),
   (".xml", "skip"), (".yaml", "skip"), (".yml", "skip")]

/-- The `lowercase_mapping` dict comprehension of `execute_mapping()`:
every key is passed through `str.lower()`. -/
def lowercase_mapping : List (String × String) :=
  extension_table.map (fun p => (str_lower p.1, p.2))

/-- Embedding of indexing (`d[key]`) on the `CaseInsensitiveDict` returned by
`execute_mapping()`: a missing key triggers `__missing__`, which returns
`self.get(key.lower(), "")`. -/
def mapping_getitem (key : String) : String :=
  match List.lookup key lowercase_mapping with
  | some v => v
  | none => (List.lookup (str_lower key) lowercase_mapping).getD ""

/-- Embedding of `d.get(key, default)` on the same object: the Python builtin
`dict.get` never invokes `__missing__`, so it falls back to the default on any
exact-match miss. -/
def mapping_get (key default_value : String) : String :=
  (List.lookup key lowercase_mapping).getD default_value

/-- Embedding of the auto-derivation of a command from a file extension in the
`exec` command (cli line 628): `execute_mapping().get(ext, "skip")`. -/
def auto_derive_command (ext : String) : String := mapping_get ext "skip"

/-- Embedding of `get_files(gist_data)`: the gist's files with the content
already fetched from each `raw_url`, as ordered (filename, content) pairs.
The HTTP fetch is out of scope, so a gist is represented directly by this
list. -/
def get_files (gist_files : List (String × String)) : List (String × String) :=
  gist_files

/-- Embedding of `hash_gist(gist_data, hash_func, encoding)` (cli lines
292-309) with the fixed default `encoding="utf-8"`.  The hashlib digest
primitive is out of scope and appears as the `hexdigest` parameter, applied to
the algorithm name and the byte sequence passed to `hash_obj.update`. -/
def hash_gist (hexdigest : String → List Nat → String)
    (gist_files : List (String × String)) (hash_func : String) : String :=
  let files := get_files gist_files
  let combined_content := String.join (files.map (fun f => f.2))
  hexdigest hash_func (encode_utf8 combined_content)

/-- Concatenation of the files' contents in list order with no separator,
written as the specification describes it (a left fold of string append).
`hash_gist` is proved to digest exactly this string. -/
def concat_contents_spec (files : List (String × String)) : String :=
  files.foldl (fun acc f => acc ++ f.2) ""

/-- A concrete stand-in digest function, used to evaluate `hash_gist` and
`compare_hash` at concrete inputs. -/
def demo_hexdigest : String → List Nat → String :=
  fun hash_func bytes => hash_func ++ String.mk (bytes.map Char.ofNat)

/-- Embedding of `compare_hash(gist_data, expected_hash, hash_func)` (cli
lines 312-315): recompute the digest and raise `ValueError` naming both
digests when it differs from the expected one. -/
def compare_hash (hexdigest : String → List Nat → String)
    (gist_files : List (String × String)) (expected_hash hash_func : String) :
    Except String Unit :=
  let actual_hash := hash_gist hexdigest gist_files hash_func
  if actual_hash ≠ expected_hash then
    Except.error ("Hash mismatch. Expected: " ++ expected_hash ++ ", Actual: " ++ actual_hash)
  else
    Except.ok ()

/-- Result of one `subprocess.run(..., check=True, shell=True, timeout=...)`
call: normal completion, `CalledProcessError` (non-zero exit), or
`TimeoutExpired`. -/
inductive ProcOutcome
  | completed
  | calledProcessError
  | timedOut
deriving DecidableEq

/-- The operating-system environment seen by the Execution Runner: for each
(filename, content, command) triple, the outcome of the child process and the
wall-clock duration its successful run would take. -/
structure ExecEnv where
  outcome : String → String → String → ProcOutcome
  duration : String → String → String → Rat

/-- Embedding of `execute_file(filename, file_obj, command, timeout, dry_run)`
(cli lines 331-363).  A dry run records 0.0 without touching the process
facility.  Otherwise the child process runs; `CalledProcessError` and
`TimeoutExpired` are caught and recorded as duration 0.0 — the function
returns normally in every case. -/
def execute_file (env : ExecEnv) (filename content command : String)
    (timeout : Nat) (dry_run : Bool) : String × Rat :=
  let full_command := command ++ " " ++ filename
  if dry_run then
    (full_command, 0)
  else
    match env.outcome filename content command with
    | ProcOutcome.completed => (full_command, env.duration filename content command)
    | ProcOutcome.calledProcessError => (full_command, 0)
    | ProcOutcome.timedOut => (full_command, 0)

/-- Embedding of `execute_files(files, commands, timeout, dry_run)` (cli lines
366-389): iterate over `zip(files, commands)` in order, record a
`("Skipped <filename>", 0.0)` result when the command lowercases to "skip",
and otherwise delegate to `execute_file`. -/
def execute_files (env : ExecEnv) :
    List (String × String) → List String → Nat → Bool → List (String × Rat)
  | [], _, _, _ => []
  | _ :: _, [], _, _ => []
  | f :: fs, c :: cs, timeout, dry_run =>
    (if str_lower c = "skip" then ("Skipped " ++ f.1, (0 : Rat))
     else execute_file env f.1 f.2 c timeout dry_run)
      :: execute_files env fs cs timeout dry_run

/-- Embedding of `validate_commands(commands, files)` (cli lines 392-415).
The blocking `click.confirm` prompt is out of scope and its answer is the
`confirm` parameter; `Except.error` is the `ValueError` raised on decline. -/
def validate_commands (confirm : Bool) (commands : List String)
    (files : List (String × String)) : Except String (List String) :=
  let num_files := files.length
  let num_commands := commands.length
  if num_commands = 0 then
    Except.ok (List.replicate num_files "skip")
  else if num_commands ≠ num_files then
    if confirm then
      Except.ok (commands.take num_files ++ List.replicate (num_files - num_commands) "skip")
    else
      Except.error "Aborted due to command mismatch."
  else
    Except.ok commands

/-- Embedding of the post-fetch part of the `exec` command body (cli lines
629-653): validate the plan, then — unless the gist has no files, the user
aborts at the proceed prompt, or dry-run is active — run `execute_files`.
An `Except.error` is an exception propagating out of the body before any
execution; the result list is what `execute_files` produced (empty when it
was never called). -/
def exec_run (planner_confirm proceed_confirm : Bool) (env : ExecEnv)
    (files : List (String × String)) (commands : List String)
    (timeout : Nat) (dry_run yes : Bool) : Except String (List (String × Rat)) :=
  match validate_commands planner_confirm commands files with
  | Except.error e => Except.error e
  | Except.ok cmds =>
    if files.isEmpty then Except.ok []
    else if !dry_run && !yes && !proceed_confirm then Except.error "Aborted"
    else if dry_run then Except.ok []
    else Except.ok (execute_files env files cmds timeout dry_run)

/-- Model of the Python float format `f"{x:.2f}"` on a nonnegative rational
duration: the value rounded to a whole number of hundredths, printed with two
digits after the decimal point.  `Int.fdiv (200 * num + den) (2 * den)` is the
floor of `100 * q + 1/2`, computed on the numerator and denominator so that it
evaluates on concrete inputs. -/
def format_seconds (q : Rat) : String :=
  let cents : Int := Int.fdiv (200 * q.num + q.den) (2 * q.den)
  let n : Nat := cents.toNat
  toString (n / 100) ++ "." ++ (if n % 100 < 10 then "0" else "") ++ toString (n % 100)

/-- Embedding of `generate_execution_report(results)` (cli lines 418-434):
a string and a running total accumulated over the results with `+=`, then the
trailing total line. -/
def generate_execution_report (results : List (String × Rat)) : String :=
  let final := results.foldl
    (fun acc r =>
      (acc.1 ++ "- Command: " ++ r.1 ++ "\n" ++ "  Execution Time: "
         ++ format_seconds r.2 ++ " seconds\n",
       acc.2 + r.2))
    ("Execution Report:\n", (0 : Rat))
  final.1 ++ "\nTotal Execution Time: " ++ format_seconds final.2 ++ " seconds"

/-- The two-line entry the report devotes to one result, as the specification
lays it out. -/
def report_line (r : String × Rat) : String :=
  "- Command: " ++ r.1 ++ "\n" ++ "  Execution Time: " ++ format_seconds r.2 ++ " seconds\n"

/-- Concatenation of a list of strings in order (the declarative shape the
report body is proved equal to). -/
def join_all (l : List String) : String := l.foldr (fun a b => a ++ b) ""

/-- Embedding of `validate_username_gistname_pair(username_gistname_pair)`
(cli lines 57-74): require exactly one slash, split at it (`split("/", 1)`),
and reject empty components.  `Except.error` is the raised `ValueError`. -/
def validate_username_gistname_pair (s : String) : Except String (String × String) :=
  if s.data.count '/' ≠ 1 then
    Except.error ("Invalid format for username_gistname_pair: " ++ s)
  else
    let username := String.mk (s.data.takeWhile (fun c => c != '/'))
    let gist_name := String.mk ((s.data.dropWhile (fun c => c != '/')).drop 1)
    if username = "" ∨ gist_name = "" then
      Except.error "Neither username nor gist name can be empty."
    else
      Except.ok (username, gist_name)

/-- A page-indexed listing: the first page holds one gist whose description is
not the requested one, and every later page is empty (so a paginating client
would exhaust the listing after two requests). -/
def pages_stuck : Nat → List Gist :=
  fun n => if n = 1 then [⟨"id1", "another-gist"⟩] else []

/-- Claim C1: the lookup with default "skip" used to auto-derive commands is
case-insensitive.  Evaluation of the embedded code at the failing input ".PY"
shows it is not: `dict.get` bypasses `__missing__`, so the auto-derive path
returns "skip" for ".PY" but "python" for its lowercase form ".py", even
though indexing (`d[".PY"]`, which does reach `__missing__`) returns
"python". -/
theorem auto_derive_skips_uppercase_extension :
    auto_derive_command ".PY" = "skip" ∧
    auto_derive_command ".py" = "python" ∧
    mapping_getitem ".PY" = "python" ∧
    str_lower ".PY" = ".py" := by
  refine ⟨rfl, by decide, by decide, by decide⟩

/-- Claim C2: the fetch loop advances through successive pages and terminates
for every sequence of page responses.  Evaluation of the embedded code on
`pages_stuck` (first page non-empty with no match, second page empty) shows it
does not: the loop re-requests the first page forever — the `page` counter is
incremented but never sent — so for every amount of fuel and every starting
page value the loop is still running. -/
theorem fetch_gist_stuck_on_first_page :
    ∀ (fuel page : Nat),
      fetch_gist_loop pages_stuck "octocat" "target-gist" page fuel = none := by
  intro fuel
  induction fuel with
  | zero => intro _; rfl
  | succ k ih =>
    intro page
    show fetch_gist_loop pages_stuck "octocat" "target-gist" (page + 1) k = none
    exact ih (page + 1)

/-- If index `i` satisfies the predicate and every earlier index does not,
`find?` returns the element at `i`. -/
theorem find_eq_get_of_first {α : Type} (p : α → Bool) :
    ∀ (l : List α) (i : Nat) (hi : i < l.length),
      p (l.get ⟨i, hi⟩) = true →
      (∀ j (hj : j < i), p (l.get ⟨j, Nat.lt_trans hj hi⟩) = false) →
      l.find? p = some (l.get ⟨i, hi⟩)
  | [], i, hi => by simp at hi
  | a :: t, 0, hi => fun hp _ => by
      simp only [List.get] at hp ⊢
      simp [List.find?_cons_of_pos, hp]
  | a :: t, i + 1, hi => fun hp hfirst => by
      have ha : p a = false := hfirst 0 (Nat.succ_pos i)
      have ht := find_eq_get_of_first p t i (Nat.lt_of_succ_lt_succ hi)
        (by simpa using hp)
        (fun j hj => by simpa using hfirst (j + 1) (Nat.succ_lt_succ hj))
      simp only [List.get]
      rw [List.find?_cons_of_neg _ (by simp [ha]), ht]

/-- The page the buggy loop consults contains a case-insensitive match for
"mygist" at index 0 and a case-sensitive one at index 1. -/
def pages_case : Nat → List Gist :=
  fun _ => [⟨"id1", "MyGist"⟩, ⟨"id2", "mygist"⟩]

/-- Claim C3, counterexample: the claim predicts that fetching "mygist" from
`pages_case` returns the gist "id1", whose description "MyGist" is the first
case-insensitive exact match in page-then-list order.  The embedded code
instead returns "id2": the comparison `gist["description"] == gist_name` is
case-sensitive. -/
theorem fetch_gist_ignores_case_insensitive_match :
    fetch_gist pages_case "octocat" "mygist" 5 = some (Except.ok ⟨"id2", "mygist"⟩) ∧
    str_lower "MyGist" = str_lower "mygist" ∧
    ("MyGist" : String) ≠ "mygist" := by
  refine ⟨rfl, by decide, by decide⟩

/-- Claim C3 (amended): when the first page of the listing contains a gist
whose description is a case-sensitive exact match of the requested name, the
returned gist is the first such gist in list order (pages after the first are
never consulted by the loop, which re-requests the first page). -/
theorem fetch_gist_returns_first_exact_match (pages : Nat → List Gist)
    (username gist_name : String) (i : Nat) (hi : i < (pages 1).length)
    (hmatch : ((pages 1).get ⟨i, hi⟩).description = gist_name)
    (hfirst : ∀ j (hj : j < i), ((pages 1).get ⟨j, Nat.lt_trans hj hi⟩).description ≠ gist_name)
    (fuel : Nat) (hfuel : 0 < fuel) :
    fetch_gist pages username gist_name fuel = some (Except.ok ((pages 1).get ⟨i, hi⟩)) := by
  obtain ⟨k, rfl⟩ : ∃ k, fuel = k + 1 := ⟨fuel - 1, by omega⟩
  have hfind : (pages 1).find? (fun g => g.description == gist_name)
      = some ((pages 1).get ⟨i, hi⟩) := by
    apply find_eq_get_of_first
    · simpa using hmatch
    · intro j hj
      simpa using hfirst j hj
  have hne : (pages 1).isEmpty = false := by
    cases hp : pages 1 with
    | nil => rw [hp] at hi; simp at hi
    | cons a t => simp
  unfold fetch_gist fetch_gist_loop list_user_gists
  simp [hne, hfind]

/-- A listing whose first page has a non-matching gist before the matching
one. -/
def pages_witness : Nat → List Gist :=
  fun _ => [⟨"id1", "other"⟩, ⟨"id2", "target"⟩]

/-- Witness for the amended claim C3 at a concrete listing. -/
theorem fetch_gist_returns_first_exact_match_witness :
    fetch_gist pages_witness "octocat" "target" 3 = some (Except.ok ⟨"id2", "target"⟩) := by
  have h := fetch_gist_returns_first_exact_match pages_witness "octocat" "target" 1
    (by decide) (by decide)
    (fun j hj => by
      have hj0 : j = 0 := by omega
      subst hj0
      exact (by decide : ("other" : String) ≠ "target"))
    3 (by decide)
  exact h

/-- Claim C4: whenever the Execution Planner returns normally, its result has
exactly one command per file: with no commands it is all skip markers, with a
matching count it is the commands unchanged, and on a confirmed mismatch it is
the commands truncated to the file count and padded with skip markers. -/
theorem validate_commands_length_invariant (confirm : Bool) (commands : List String)
    (files : List (String × String)) (r : List String)
    (h : validate_commands confirm commands files = Except.ok r) :
    r.length = files.length ∧
    (commands.length = 0 → r = List.replicate files.length "skip") ∧
    (commands.length = files.length → r = commands) ∧
    (commands.length ≠ 0 → commands.length ≠ files.length →
      r = commands.take files.length
          ++ List.replicate (files.length - commands.length) "skip") := by
  unfold validate_commands at h
  by_cases h0 : commands.length = 0
  · rw [if_pos h0] at h
    simp only [Except.ok.injEq] at h
    subst h
    refine ⟨List.length_replicate _ _, fun _ => rfl, ?_, fun hc _ => absurd h0 hc⟩
    intro hlen
    rw [← hlen, h0]
    have : commands = [] := List.length_eq_zero.mp h0
    simp [this]
  · rw [if_neg h0] at h
    by_cases hmis : commands.length ≠ files.length
    · rw [if_pos hmis] at h
      cases confirm with
      | false => simp at h
      | true =>
        rw [if_pos rfl] at h
        simp only [Except.ok.injEq] at h
        subst h
        refine ⟨?_, fun hc => absurd hc h0, fun hlen => absurd hlen hmis, fun _ _ => rfl⟩
        simp only [List.length_append, List.length_take, List.length_replicate]
        omega
    · rw [if_neg hmis] at h
      simp only [Except.ok.injEq] at h
      subst h
      have hlen : commands.length = files.length := by omega
      refine ⟨hlen, fun hc => absurd hc h0, fun _ => rfl, fun _ hne => absurd hlen hne⟩

/-- Witness for claim C4: one command against two files, confirmed — the plan
is truncated/padded to length two. -/
theorem validate_commands_length_invariant_witness :
    (["python", "skip"] : List String).length
        = ([("script1.py", ""), ("script2.py", "")] : List (String × String)).length ∧
    (["python"] : List String).length ≠ 0 ∧
    ["python", "skip"]
      = (["python"] : List String).take 2 ++ List.replicate (2 - 1) "skip" := by
  have h := validate_commands_length_invariant true ["python"]
    [("script1.py", ""), ("script2.py", "")] ["python", "skip"] rfl
  exact ⟨h.1, by decide, h.2.2.2 (by decide) (by decide)⟩

/-- Claim C5: with a non-empty command list whose length differs from the file
count and the user declining the confirmation, the Planner raises the mismatch
error, and the exec command body propagates it without running any file — no
result list is produced. -/
theorem validate_commands_decline_aborts (commands : List String)
    (files : List (String × String))
    (h1 : commands ≠ []) (h2 : commands.length ≠ files.length) :
    validate_commands false commands files
        = Except.error "Aborted due to command mismatch." ∧
    ∀ (proceed_confirm : Bool) (env : ExecEnv) (timeout : Nat) (dry_run yes : Bool),
      exec_run false proceed_confirm env files commands timeout dry_run yes
        = Except.error "Aborted due to command mismatch." := by
  have h0 : ¬ commands.length = 0 := by
    simpa [List.length_eq_zero] using h1
  have hv : validate_commands false commands files
      = Except.error "Aborted due to command mismatch." := by
    unfold validate_commands
    rw [if_neg h0, if_pos h2]
    rfl
  refine ⟨hv, fun pc env t d y => ?_⟩
  unfold exec_run
  rw [hv]

/-- Witness for claim C5: one command against two files, declined. -/
theorem validate_commands_decline_aborts_witness :
    validate_commands false ["python"] [("script1.py", ""), ("script2.py", "")]
        = Except.error "Aborted due to command mismatch." :=
  (validate_commands_decline_aborts ["python"] [("script1.py", ""), ("script2.py", "")]
    (by decide) (by decide)).1

/-- Claim C6, counterexample: the contents "a" and "aa" are distinct, yet
swapping them produces the same concatenation "aaa", hence the same byte
sequence passed to the digest and the same hash — so swapping two distinct
contents does not always change the result. -/
theorem hash_gist_swap_counterexample :
    ("a" : String) ≠ "aa" ∧
    encode_utf8 (String.join ([("f1", "a"), ("f2", "aa")].map (fun f => f.2)))
      = encode_utf8 (String.join ([("f1", "aa"), ("f2", "a")].map (fun f => f.2))) ∧
    hash_gist demo_hexdigest [("f1", "a"), ("f2", "aa")] "sha256"
      = hash_gist demo_hexdigest [("f1", "aa"), ("f2", "a")] "sha256" := by
  refine ⟨by decide, by decide, by decide⟩

/-- Claim C6 (amended): `hash_gist` returns the digest of the UTF-8 bytes of
the files' contents concatenated in list order with no separator, an empty
file list digests the empty byte sequence, and the digested byte sequence is
order-sensitive when the swapped concatenations differ (as for the distinct
equal-length contents "x" and "y"), though not for every pair of distinct
contents. -/
theorem hash_gist_digests_ordered_concatenation
    (hexdigest : String → List Nat → String) (gist_files : List (String × String))
    (hash_func : String) :
    hash_gist hexdigest gist_files hash_func
        = hexdigest hash_func (encode_utf8 (concat_contents_spec gist_files)) ∧
    hash_gist hexdigest [] hash_func = hexdigest hash_func [] ∧
    encode_utf8 (concat_contents_spec [("file1.txt", "x"), ("file2.txt", "y")])
        ≠ encode_utf8 (concat_contents_spec [("file1.txt", "y"), ("file2.txt", "x")]) := by
  refine ⟨?_, rfl, by decide⟩
  unfold hash_gist get_files concat_contents_spec String.join
  simp only [List.foldl_map]

/-- Claim C7: `compare_hash` succeeds exactly when the computed digest equals
the expected one, and on any mismatch fails with the message naming both the
expected and the actual digest. -/
theorem compare_hash_mismatch_iff (hexdigest : String → List Nat → String)
    (gist_files : List (String × String)) (expected_hash hash_func : String) :
    (compare_hash hexdigest gist_files expected_hash hash_func = Except.ok ()
        ↔ hash_gist hexdigest gist_files hash_func = expected_hash) ∧
    ∀ msg, compare_hash hexdigest gist_files expected_hash hash_func = Except.error msg
        ↔ hash_gist hexdigest gist_files hash_func ≠ expected_hash ∧
          msg = "Hash mismatch. Expected: " ++ expected_hash ++ ", Actual: "
              ++ hash_gist hexdigest gist_files hash_func := by
  unfold compare_hash
  by_cases h : hash_gist hexdigest gist_files hash_func = expected_hash <;>
    simp [h, eq_comm]

/-- Witness for claim C7: a mismatching expected digest produces the error
naming both digests. -/
theorem compare_hash_mismatch_iff_witness :
    compare_hash demo_hexdigest [("f", "x")] "deadbeef" "sha256"
      = Except.error ("Hash mismatch. Expected: deadbeef, Actual: "
          ++ hash_gist demo_hexdigest [("f", "x")] "sha256") := by
  have h := compare_hash_mismatch_iff demo_hexdigest [("f", "x")] "deadbeef" "sha256"
  exact (h.2 _).mpr ⟨by decide, rfl⟩

/-- `execute_files` is the map of the per-item step over `zip files commands`:
each result depends only on its own (file, command) pair. -/
theorem execute_files_eq_map (env : ExecEnv) :
    ∀ (files : List (String × String)) (commands : List String)
      (timeout : Nat) (dry_run : Bool),
      execute_files env files commands timeout dry_run
        = (files.zip commands).map (fun fc =>
            if str_lower fc.2 = "skip" then ("Skipped " ++ fc.1.1, (0 : Rat))
            else execute_file env fc.1.1 fc.1.2 fc.2 timeout dry_run)
  | [], _, _, _ => by simp [execute_files]
  | _ :: _, [], _, _ => by simp [execute_files]
  | f :: fs, c :: cs, timeout, dry_run => by
      simp only [execute_files, List.zip_cons_cons, List.map_cons]
      rw [execute_files_eq_map env fs cs]

/-- A failing (or timed-out) child process is caught inside `execute_file`:
the function still returns, recording duration 0.0. -/
theorem execute_file_failure (env : ExecEnv) (fname content command : String) (timeout : Nat)
    (hfail : env.outcome fname content command ≠ ProcOutcome.completed) :
    execute_file env fname content command timeout false
      = (command ++ " " ++ fname, (0 : Rat)) := by
  unfold execute_file
  cases h : env.outcome fname content command with
  | completed => exact absurd h hfail
  | calledProcessError => simp [h]
  | timedOut => simp [h]

/-- Claim C8: when the child process of plan item `i` fails or times out, the
runner records `(full command, 0.0)` for it and still produces the result of
every other (file, command) pair of the plan — the batch is not aborted. -/
theorem execute_files_continue_on_error (env : ExecEnv) (files : List (String × String))
    (commands : List String) (timeout : Nat) (i : Nat) (fname content command : String)
    (hi : (files.zip commands)[i]? = some ((fname, content), command))
    (hskip : str_lower command ≠ "skip")
    (hfail : env.outcome fname content command ≠ ProcOutcome.completed) :
    (execute_files env files commands timeout false)[i]?
        = some (command ++ " " ++ fname, (0 : Rat)) ∧
    (execute_files env files commands timeout false).length
        = min files.length commands.length ∧
    ∀ (j : Nat) (p : String × String) (c : String),
      (files.zip commands)[j]? = some (p, c) →
      (execute_files env files commands timeout false)[j]?
        = some (if str_lower c = "skip" then ("Skipped " ++ p.1, (0 : Rat))
                else execute_file env p.1 p.2 c timeout false) := by
  rw [execute_files_eq_map]
  refine ⟨?_, ?_, ?_⟩
  · rw [List.getElem?_map, hi]
    simp [hskip, execute_file_failure env fname content command timeout hfail]
  · simp [List.length_map, List.length_zip]
  · intro j p c hj
    rw [List.getElem?_map, hj]
    rfl

/-- An environment in which the file "b.py" fails with a non-zero exit and
every other file completes in one second. -/
def env_demo : ExecEnv :=
  { outcome := fun fname _ _ =>
      if fname = "b.py" then ProcOutcome.calledProcessError else ProcOutcome.completed,
    duration := fun _ _ _ => 1 }

/-- Witness for claim C8: in a three-file batch whose middle file fails, the
middle result is recorded with duration 0 and the batch still has all three
results. -/
theorem execute_files_continue_on_error_witness :
    (execute_files env_demo [("a.py", "A"), ("b.py", "B"), ("c.py", "C")]
        ["python", "python", "python"] 60 false)[1]?
        = some ("python b.py", (0 : Rat)) ∧
    (execute_files env_demo [("a.py", "A"), ("b.py", "B"), ("c.py", "C")]
        ["python", "python", "python"] 60 false).length = 3 := by
  have h := execute_files_continue_on_error env_demo
    [("a.py", "A"), ("b.py", "B"), ("c.py", "C")] ["python", "python", "python"]
    60 1 "b.py" "B" "python" rfl (by decide) (by decide)
  exact ⟨h.1, h.2.1.trans (by decide)⟩

/-- String append is associative (at the character-list level). -/
theorem string_append_assoc (a b c : String) : a ++ b ++ c = a ++ (b ++ c) := by
  cases a with
  | mk da =>
    cases b with
    | mk db =>
      cases c with
      | mk dc =>
        show String.mk (da ++ db ++ dc) = String.mk (da ++ (db ++ dc))
        rw [List.append_assoc]

/-- The report accumulator, started from any prefix string and running total,
produces that prefix followed by the per-item lines in order, and adds the
items' durations to the total. -/
theorem report_foldl :
    ∀ (results : List (String × Rat)) (pre : String) (t : Rat),
      results.foldl
        (fun acc r =>
          (acc.1 ++ "- Command: " ++ r.1 ++ "\n" ++ "  Execution Time: "
             ++ format_seconds r.2 ++ " seconds\n",
           acc.2 + r.2)) (pre, t)
        = (pre ++ join_all (results.map report_line), t + (results.map Prod.snd).sum)
  | [], pre, t => by simp [join_all]
  | r :: rest, pre, t => by
      simp only [List.foldl_cons, List.map_cons, List.sum_cons]
      rw [report_foldl rest]
      simp only [Prod.mk.injEq]
      constructor
      · simp [report_line, join_all, List.foldr_cons, string_append_assoc]
      · rw [add_assoc]

/-- Claim C9: the report is exactly the header line, the two-line entry for
each result in order, and the trailing total line whose value is the sum of
all elapsed times formatted to two decimal places; the empty result list
yields exactly the header, a blank line, and a zero total. -/
theorem generate_execution_report_layout (results : List (String × Rat)) :
    generate_execution_report results
        = "Execution Report:\n" ++ join_all (results.map report_line)
          ++ "\nTotal Execution Time: "
          ++ format_seconds ((results.map Prod.snd).sum) ++ " seconds" ∧
    generate_execution_report []
        = "Execution Report:\n\nTotal Execution Time: 0.00 seconds" := by
  constructor
  · simp only [generate_execution_report]
    rw [report_foldl]
    simp only [zero_add]
  · decide

/-- Splitting a character list at its unique slash: the two pieces reassemble
to the original list around the slash, and neither piece contains a slash. -/
theorem split_at_single_slash :
    ∀ (l : List Char), l.count '/' = 1 →
      l.takeWhile (fun c => c != '/') ++ '/' :: (l.dropWhile (fun c => c != '/')).drop 1 = l ∧
      '/' ∉ l.takeWhile (fun c => c != '/') ∧
      '/' ∉ (l.dropWhile (fun c => c != '/')).drop 1
  | [], h => by simp at h
  | c :: t, h => by
      by_cases hc : c = '/'
      · subst hc
        have ht : t.count '/' = 0 := by
          simp [List.count_cons] at h
          omega
        have hnot : '/' ∉ t := List.count_eq_zero.mp ht
        refine ⟨?_, ?_, ?_⟩
        · simp [List.takeWhile_cons, List.dropWhile_cons]
        · simp [List.takeWhile_cons]
        · simpa [List.dropWhile_cons] using hnot
      · have hb : (c != '/') = true := by simp [hc]
        have hcount : t.count '/' = 1 := by
          simp [List.count_cons, hc] at h
          omega
        obtain ⟨ih1, ih2, ih3⟩ := split_at_single_slash t hcount
        refine ⟨?_, ?_, ?_⟩
        · simp only [List.takeWhile_cons, List.dropWhile_cons, hb, if_true, List.cons_append]
          rw [ih1]
        · simp only [List.takeWhile_cons, hb, if_true, List.mem_cons]
          push_neg
          exact ⟨fun hh => hc hh.symm, ih2⟩
        · simpa only [List.dropWhile_cons, hb, if_true] using ih3

/-- Claim C10: every accepted username/gistname pair round-trips — joining the
two returned components with "/" reproduces the input exactly, and neither
component is empty or contains a slash. -/
theorem validate_username_gistname_pair_round_trip (s u g : String)
    (h : validate_username_gistname_pair s = Except.ok (u, g)) :
    u ++ "/" ++ g = s ∧ u ≠ "" ∧ g ≠ "" ∧ '/' ∉ u.data ∧ '/' ∉ g.data := by
  unfold validate_username_gistname_pair at h
  by_cases hcnt : s.data.count '/' ≠ 1
  · rw [if_pos hcnt] at h
    cases h
  · rw [if_neg hcnt] at h
    push_neg at hcnt
    by_cases hemp : String.mk (s.data.takeWhile (fun c => c != '/')) = ""
        ∨ String.mk ((s.data.dropWhile (fun c => c != '/')).drop 1) = ""
    · rw [if_pos hemp] at h
      cases h
    · rw [if_neg hemp] at h
      simp only [Except.ok.injEq, Prod.mk.injEq] at h
      obtain ⟨hu, hg⟩ := h
      subst hu
      subst hg
      obtain ⟨hsplit, hnotin1, hnotin2⟩ := split_at_single_slash s.data hcnt
      push_neg at hemp
      refine ⟨?_, hemp.1, hemp.2, hnotin1, hnotin2⟩
      have hlist : (s.data.takeWhile (fun c => c != '/') ++ ['/'])
          ++ (s.data.dropWhile (fun c => c != '/')).drop 1 = s.data := by
        rw [List.append_assoc]
        exact hsplit
      exact congrArg String.mk hlist

/-- Witness for claim C10 at the documented example input. -/
theorem validate_username_gistname_pair_round_trip_witness :
    ("octocat" : String) ++ "/" ++ "my-gist" = "octocat/my-gist" ∧
    ("octocat" : String) ≠ "" ∧ ("my-gist" : String) ≠ "" ∧
    '/' ∉ ("octocat" : String).data ∧ '/' ∉ ("my-gist" : String).data :=
  validate_username_gistname_pair_round_trip "octocat/my-gist" "octocat" "my-gist" rfl

end Gistrun
